import Mathlib

/-
Verification of the hunt dispatcher core (flows/hunts.go) of the
velociraptor repository.

The Go code is shallowly embedded: protobuf messages become structures
whose fields default to the protobuf zero values, the durable key/value
store becomes an association list from paths to stored objects together
with an explicit trace of the store operations issued, and each Go
function becomes a pure Lean function threading the store state.
uint64 arithmetic is Nat with explicit wrap (mod 2^64) at the operations
where wraparound can be observed; counter increments whose operands are
bounded far below 2^64 are plain Nat additions.

External collaborators (the gRPC flow launcher and the generic flow
result reader) are passed in as function parameters.  The unbounded
`for {}` loops of the Go code are embedded with an explicit fuel
parameter; fuel exhaustion behaves like the loop's `break`.
-/

set_option maxHeartbeats 1000000

/-- The modulus of Go's uint64 arithmetic. -/
def U64 : Nat := 18446744073709551616

/-- uint64 addition with wraparound. -/
def u64add (a b : Nat) : Nat := (a + b) % U64

/-- uint64 multiplication with wraparound. -/
def u64mul (a b : Nat) : Nat := a * b % U64

/-- uint64 subtraction with wraparound. -/
def u64sub (a b : Nat) : Nat := (a % U64 + (U64 - b % U64)) % U64

/-- Hunt.State from the api proto: UNSET, PAUSED, RUNNING, STOPPED, ARCHIVED. -/
inductive HuntState where
  | UNSET
  | PAUSED
  | RUNNING
  | STOPPED
  | ARCHIVED
deriving DecidableEq, Repr

/-- FlowContext.State from the flows proto.  The Go zero value of the enum
is written UNSET here; flows/hunts.go only ever tests for RUNNING and ERROR. -/
inductive FlowState where
  | UNSET
  | RUNNING
  | TERMINATED
  | ERROR
deriving DecidableEq, Repr

/-- HuntInfo.State from the api proto; flows/hunts.go only assigns ERROR. -/
inductive HuntInfoState where
  | UNSET
  | PENDING
  | SCHEDULED
  | ERROR
deriving DecidableEq, Repr

/-- FlowRunnerArgs / StartRequest: only the fields flows/hunts.go touches.
The opaque Any-encoded args of an ArtifactCollector request are modelled by
`artifactNames`, which is `none` when unmarshalling the args would fail. -/
structure FlowRunnerArgs where
  clientId : String := ""
  creator : String := ""
  flowName : String := ""
  artifactNames : Option (List String) := none
deriving DecidableEq, Repr

/-- FlowContext: the delegate flow outcome embedded in a HuntInfo. -/
structure FlowContext where
  state : FlowState := FlowState.UNSET
  totalResults : Nat := 0
  createTime : Nat := 0
  backtrace : String := ""
deriving DecidableEq, Repr

/-- HuntInfo: the per-client hunt assignment record.  Fields default to the
protobuf zero values, so `{}` is the value a failed GetSubject leaves behind. -/
structure HuntInfo where
  clientId : String := ""
  huntId : String := ""
  flowId : String := ""
  state : HuntInfoState := HuntInfoState.UNSET
  startRequest : FlowRunnerArgs := {}
  result : Option FlowContext := none
deriving DecidableEq, Repr

/-- Hunt: the fleet-wide hunt object, fields as in api proto Hunt. -/
structure Hunt where
  huntId : String := ""
  createTime : Nat := 0
  expires : Nat := 0
  state : HuntState := HuntState.UNSET
  clientRate : Nat := 0
  lastUnpauseTime : Nat := 0
  totalClientsWhenUnpaused : Nat := 0
  totalClientsScheduled : Nat := 0
  totalClientsWithResults : Nat := 0
  totalClientsWithErrors : Nat := 0
  totalClientsWithoutResults : Nat := 0
  startRequest : FlowRunnerArgs := {}
  artifacts : List String := []
deriving DecidableEq, Repr

/-- A value stored in the data store: either a HuntInfo, a Hunt object, or
an object that fails to decode when read back (`corrupt`). -/
inductive StoredObject where
  | huntInfoObj (info : HuntInfo)
  | huntObj (hunt : Hunt)
  | corrupt
deriving DecidableEq, Repr

/-- Modelled from the spec: the Durable Queue Store is a hierarchical
key/value store; its state is the association of paths to stored objects. -/
structure DB where
  entries : List (String × StoredObject)
deriving DecidableEq, Repr

/-- A store operation, recorded in the trace so that claims about which
operations a call issues can be stated. -/
inductive StoreOp where
  | listOp (urn : String)
  | getOp (urn : String)
  | setOp (urn : String)
  | delOp (urn : String)
deriving DecidableEq, Repr

/-- The store as seen by the embedded code: the data plus the trace of the
operations issued so far. -/
structure Store where
  db : DB
  trace : List StoreOp
deriving DecidableEq, Repr

/-- Path k is an immediate child of path urn: it extends `urn ++ "/"` by a
nonempty component that contains no further slash. -/
def childOf (urn k : String) : Bool :=
  ((urn ++ "/").data.isPrefixOf k.data)
    && !(k.data.drop (urn.data.length + 1)).isEmpty
    && (k.data.drop (urn.data.length + 1)).all (fun c => c != '/')

/-- Look up the object stored at a path. -/
def DB.lookupObj (db : DB) (urn : String) : Option StoredObject :=
  (db.entries.find? (fun e => e.1 == urn)).map Prod.snd

/-- Modelled from the spec: list_children(path, offset, limit) -> [path],
paginated listing of the immediate children of a path. -/
def DB.listChildren (db : DB) (urn : String) (offset lim : Nat) : List String :=
  (((db.entries.map Prod.fst).filter (childOf urn)).drop offset).take lim

/-- Modelled from the spec: set_object(path, value), atomic per path. -/
def DB.setObj (db : DB) (urn : String) (v : StoredObject) : DB :=
  ⟨db.entries.filter (fun e => e.1 != urn) ++ [(urn, v)]⟩

/-- Modelled from the spec: delete_object(path), atomic per path. -/
def DB.delObj (db : DB) (urn : String) : DB :=
  ⟨db.entries.filter (fun e => e.1 != urn)⟩

/-- GetSubject decoding a HuntInfo: fails when the path is absent, holds a
corrupt object, or holds an object of the wrong type. -/
def DB.readHuntInfo (db : DB) (urn : String) : Except Unit HuntInfo :=
  match db.lookupObj urn with
  | some (StoredObject.huntInfoObj info) => Except.ok info
  | _ => Except.error ()

/-- GetSubject decoding a Hunt object. -/
def DB.readHuntObj (db : DB) (urn : String) : Except Unit Hunt :=
  match db.lookupObj urn with
  | some (StoredObject.huntObj h) => Except.ok h
  | _ => Except.error ()

/-- db.ListChildren with trace recording. -/
def Store.listChildren (s : Store) (urn : String) (offset lim : Nat) :
    List String × Store :=
  (s.db.listChildren urn offset lim, ⟨s.db, s.trace ++ [StoreOp.listOp urn]⟩)

/-- db.GetSubject of a HuntInfo with trace recording. -/
def Store.getHuntInfo (s : Store) (urn : String) : Except Unit HuntInfo × Store :=
  (s.db.readHuntInfo urn, ⟨s.db, s.trace ++ [StoreOp.getOp urn]⟩)

/-- db.GetSubject of a Hunt with trace recording. -/
def Store.getHuntObj (s : Store) (urn : String) : Except Unit Hunt × Store :=
  (s.db.readHuntObj urn, ⟨s.db, s.trace ++ [StoreOp.getOp urn]⟩)

/-- db.SetSubject with trace recording. -/
def Store.setObj (s : Store) (urn : String) (v : StoredObject) : Store :=
  ⟨s.db.setObj urn v, s.trace ++ [StoreOp.setOp urn]⟩

/-- db.DeleteSubject with trace recording. -/
def Store.delObj (s : Store) (urn : String) : Store :=
  ⟨s.db.delObj urn, s.trace ++ [StoreOp.delOp urn]⟩

/-- Effective client rate: Go lines 180-185 of _ScheduleClientsForHunt
(default client rate is 20 per minute). -/
def huntClientRate (hunt : Hunt) : Nat :=
  if hunt.clientRate = 0 then 20 else hunt.clientRate

/-- Effective last unpause time: Go lines 187-191 (default LastUnpauseTime
is hunt creation time). -/
def huntLastUnpause (hunt : Hunt) : Nat :=
  if hunt.lastUnpauseTime = 0 then hunt.createTime else hunt.lastUnpauseTime

/-- seconds_since_unpause of _ScheduleClientsForHunt; `now` is microseconds
since the epoch as in the Go code. -/
def secondsSinceUnpause (now : Nat) (hunt : Hunt) : Nat :=
  u64sub now (huntLastUnpause hunt) / 1000000

/-- expected_clients of _ScheduleClientsForHunt:
client_rate*seconds_since_unpause/60 + hunt.TotalClientsWhenUnpaused. -/
def expectedClients (now : Nat) (hunt : Hunt) : Nat :=
  u64add (u64mul (huntClientRate hunt) (secondsSinceUnpause now hunt) / 60)
    hunt.totalClientsWhenUnpaused

/-- clients_to_get of _ScheduleClientsForHunt. -/
def clientsToGet (now : Nat) (hunt : Hunt) : Nat :=
  expectedClients now hunt - hunt.totalClientsScheduled

/-- The pending-queue urns one scheduler pull lists:
db.ListChildren(hunt.HuntId + "/pending", 0, clients_to_get). -/
def pulledPendingUrns (now : Nat) (hunt : Hunt) (s : Store) : List String :=
  s.db.listChildren (hunt.huntId ++ "/pending") 0 (clientsToGet now hunt)

/-- The deferred cleanup of _ScheduleClientsForHunt and _SortResultsForHunt:
every listed urn is deleted from the store, whatever happened before. -/
def deleteUrns (urns : List String) (s : Store) : Store :=
  urns.foldl Store.delObj s

/-- The per-urn body of the scheduling loop (Go lines 234-283).  `launch`
is the external LaunchFlow RPC: given the HuntInfo argument it returns the
new FlowId or an error.  MarshalAny of a well-formed HuntInfo is modelled
as always succeeding. -/
def scheduleOne (now : Nat) (launch : HuntInfo → Except String String)
    (acc : Bool × Hunt × Store) (urn : String) : Bool × Hunt × Store :=
  let modified := acc.1
  let hunt := acc.2.1
  let got := acc.2.2.getHuntInfo urn
  match got.1 with
  | Except.error _ => (modified, hunt, got.2)
  | Except.ok summary =>
    match launch summary with
    | Except.error e =>
      let summary2 : HuntInfo :=
        { summary with
          state := HuntInfoState.ERROR,
          result := some { state := FlowState.UNSET, totalResults := 0,
                           createTime := now,
                           backtrace := "HuntDispatcher: " ++ e } }
      let hunt2 : Hunt :=
        { hunt with totalClientsWithErrors := hunt.totalClientsWithErrors + 1 }
      (true, hunt2,
        got.2.setObj (hunt.huntId ++ "/errors/" ++ summary2.clientId)
          (StoredObject.huntInfoObj summary2))
    | Except.ok flowId =>
      let summary2 : HuntInfo := { summary with flowId := flowId }
      let hunt2 : Hunt :=
        { hunt with totalClientsScheduled := hunt.totalClientsScheduled + 1 }
      (true, hunt2,
        got.2.setObj (hunt.huntId ++ "/running/" ++ summary2.clientId)
          (StoredObject.huntInfoObj summary2))

/-- _ScheduleClientsForHunt (Go lines 171-286): move due clients from the
pending queue to the running queue, at most clients_to_get of them, and
always delete the pulled urns from pending afterwards. -/
def ScheduleClientsForHunt (now : Nat) (launch : HuntInfo → Except String String)
    (hunt : Hunt) (s : Store) : Bool × Hunt × Store :=
  if hunt.totalClientsScheduled < expectedClients now hunt then
    let listed := s.listChildren (hunt.huntId ++ "/pending") 0 (clientsToGet now hunt)
    if listed.1 = [] then (false, hunt, listed.2)
    else
      let looped := listed.1.foldl (scheduleOne now launch) (false, hunt, listed.2)
      (looped.1, looped.2.1, deleteUrns listed.1 looped.2.2)
  else (false, hunt, s)

/-- summary.Result.TotalResults with the Go nil guard made explicit. -/
def resultTotal (info : HuntInfo) : Nat :=
  match info.result with
  | some r => r.totalResults
  | none => 0

/-- The summary value after db.GetSubject: the decoded record on success,
the zero HuntInfo when the read failed. -/
def readSummary (res : Except Unit HuntInfo) : HuntInfo :=
  match res with
  | Except.ok v => v
  | Except.error _ => {}

/-- The per-urn body of the triage loop (Go lines 135-164). -/
def sortOne (hid : String) (acc : Bool × Nat × Hunt × Store) (urn : String) :
    Bool × Nat × Hunt × Store :=
  let modified := acc.1
  let count := acc.2.1
  let hunt := acc.2.2.1
  let got := acc.2.2.2.getHuntInfo urn
  let summary := readSummary got.1
  if (match got.1 with | Except.ok _ => false | Except.error _ => true) = true
      ∨ summary.result = none
      ∨ summary.result.map FlowContext.state = some FlowState.ERROR then
    (true, count + 1,
      { hunt with totalClientsWithErrors := hunt.totalClientsWithErrors + 1 },
      got.2.setObj (hid ++ "/errors/" ++ summary.clientId)
        (StoredObject.huntInfoObj summary))
  else if resultTotal summary > 0 then
    (true, count + 1,
      { hunt with totalClientsWithResults := hunt.totalClientsWithResults + 1 },
      got.2.setObj (hid ++ "/results/" ++ summary.clientId)
        (StoredObject.huntInfoObj summary))
  else if resultTotal summary = 0 then
    (true, count + 1,
      { hunt with totalClientsWithoutResults := hunt.totalClientsWithoutResults + 1 },
      got.2.setObj (hid ++ "/no_results/" ++ summary.clientId)
        (StoredObject.huntInfoObj summary))
  else (modified, count, hunt, got.2)

/-- _SortResultsForHunt (Go lines 104-167): list up to 100 entries of the
completed queue, re-file each into errors/results/no_results, then delete
all listed entries from completed (the deferred cleanup).  The Go error
return value is dropped; it does not affect control flow here. -/
def SortResultsForHunt (hunt : Hunt) (s : Store) : Bool × Nat × Hunt × Store :=
  let listed := s.listChildren (hunt.huntId ++ "/completed") 0 100
  if listed.1 = [] then (false, 0, hunt, listed.2)
  else
    let looped := listed.1.foldl (sortOne hunt.huntId) (false, 0, hunt, listed.2)
    (looped.1, looped.2.1, looped.2.2.1, deleteUrns listed.1 looped.2.2.2)

/-- The Update spin over _SortResultsForHunt (Go lines 78-91), with fuel;
fuel exhaustion behaves like the loop breaking. -/
def sortSpin : Nat → Bool → Hunt → Store → Bool × Hunt × Store
  | 0, modified, hunt, s => (modified, hunt, s)
  | Nat.succ fuel, modified, hunt, s =>
    let r := SortResultsForHunt hunt s
    if r.2.1 = 0 then (modified, r.2.2.1, r.2.2.2)
    else sortSpin fuel (modified || r.1) r.2.2.1 r.2.2.2

/-- The per-hunt body of Update (Go lines 66-100): skip hunts that are not
RUNNING, otherwise schedule, drain triage, and persist the hunt object if
either step modified it. -/
def updateHunt (fuel now : Nat) (launch : HuntInfo → Except String String)
    (acc : List Hunt × Store) (hunt : Hunt) : List Hunt × Store :=
  if hunt.state = HuntState.RUNNING then
    let sched := ScheduleClientsForHunt now launch hunt acc.2
    let drained := sortSpin fuel sched.1 sched.2.1 sched.2.2
    let s2 := if drained.1 = true
      then drained.2.2.setObj drained.2.1.huntId (StoredObject.huntObj drained.2.1)
      else drained.2.2
    (acc.1 ++ [drained.2.1], s2)
  else (acc.1 ++ [hunt], acc.2)

/-- HuntDispatcher.Update (Go lines 60-102). -/
def Update (fuel now : Nat) (launch : HuntInfo → Except String String)
    (hunts : List Hunt) (s : Store) : List Hunt × Store :=
  hunts.foldl (updateHunt fuel now launch) ([], s)

/-- HuntDispatcher: the in-memory mirror of the hunts table. -/
structure HuntDispatcher where
  hunts : List Hunt := []
deriving DecidableEq, Repr

/-- HuntDispatcher.GetApplicableHunts (Go lines 41-50). -/
def GetApplicableHunts (d : HuntDispatcher) (last_timestamp : Nat) : List Hunt :=
  d.hunts.filter (fun hunt => last_timestamp < hunt.createTime)

/-- Modelled from the spec: constants.HUNTS_URN, the fleet-wide hunts
namespace under which hunt objects live (ids are aff4:/hunts/H.<hex>). -/
def HUNTS_URN : String := "aff4:/hunts"

/-- Load each listed hunt urn via GetSubject; the Go code returns the first
read error immediately (NewHuntDispatcher lines 326-334). -/
def loadHunts : List String → Store → Except Unit (List Hunt) × Store
  | [], s => (Except.ok [], s)
  | urn :: rest, s =>
    let got := s.getHuntObj urn
    match got.1 with
    | Except.error e => (Except.error e, got.2)
    | Except.ok h =>
      let r := loadHunts rest got.2
      match r.1 with
      | Except.error e => (Except.error e, r.2)
      | Except.ok hs => (Except.ok (h :: hs), r.2)

/-- NewHuntDispatcher (Go lines 314-342): list up to 100 hunt objects,
load them, run Update, and return the mirror; any load failure fails the
whole build. -/
def NewHuntDispatcher (fuel now : Nat) (launch : HuntInfo → Except String String)
    (s : Store) : Except Unit HuntDispatcher × Store :=
  let listed := s.listChildren HUNTS_URN 0 100
  let r := loadHunts listed.1 listed.2
  match r.1 with
  | Except.error e => (Except.error e, r.2)
  | Except.ok hunts =>
    let upd := Update fuel now launch hunts r.2
    (Except.ok { hunts := upd.1 }, upd.2)

/-- HuntDispatcherContainer: the process-wide holder of the current mirror. -/
structure HuntDispatcherContainer where
  dispatcher : Option HuntDispatcher := none
deriving DecidableEq, Repr

/-- HuntDispatcherContainer.Refresh (Go lines 294-312): rebuild the
dispatcher; on failure publish an empty one; swap it in.  The previous
container contents are discarded either way. -/
def Refresh (fuel now : Nat) (launch : HuntInfo → Except String String)
    (s : Store) (c : HuntDispatcherContainer) : HuntDispatcherContainer × Store :=
  let r := NewHuntDispatcher fuel now launch s
  match r.1 with
  | Except.error _ => ({ dispatcher := some { hunts := [] } }, r.2)
  | Except.ok d => ({ dispatcher := some d }, r.2)

/-- The indexed loop of ListHunts (Go lines 441-450): skip idx < offset,
break at idx >= bound, append otherwise. -/
def listHuntsAux (offset bound : Nat) : Nat → List Hunt → List Hunt
  | _, [] => []
  | idx, h :: rest =>
    if idx < offset then listHuntsAux offset bound (idx + 1) rest
    else if bound ≤ idx then []
    else h :: listHuntsAux offset bound (idx + 1) rest

/-- ListHunts (Go lines 433-453) on a given dispatcher; in.Offset+in.Count
is uint64 addition. -/
def ListHunts (d : HuntDispatcher) (offset count : Nat) : List Hunt :=
  listHuntsAux offset (u64add offset count) 0 (GetApplicableHunts d 0)

/-- Go's path.Base on the character list of a path (semantics of the Go
standard library function used at line 463): strip trailing slashes, then
keep everything after the last remaining slash; "" gives ".", an
all-slashes path gives "/". -/
def pathBaseAux : List Char → List Char
  | [] => ['.']
  | a :: rest =>
    let r := ((a :: rest).reverse).dropWhile (fun c => c == '/')
    if r = [] then ['/']
    else ((r.takeWhile (fun c => c != '/')).reverse)

/-- Go's path.Base as a String function. -/
def pathBase (s : String) : String := String.mk (pathBaseAux s.data)

/-- Modelled from the spec: constants.FileFinderArtifactName, the fixed
artifact name of the legacy FileFinder flow shape. -/
def FileFinderArtifactName : String := "System.FileFinder"

/-- FindCollectedArtifacts (Go lines 378-389). -/
def FindCollectedArtifacts (hunt : Hunt) : Hunt :=
  if hunt.startRequest.flowName = "ArtifactCollector" then
    match hunt.startRequest.artifactNames with
    | some names => { hunt with artifacts := names }
    | none => hunt
  else if hunt.startRequest.flowName = "FileFinder" then
    { hunt with artifacts := [FileFinderArtifactName] }
  else hunt

/-- GetHunt (Go lines 455-477): first applicable hunt whose id's base
component equals the supplied id, with the artifact display fix-up. -/
def GetHunt (d : HuntDispatcher) (inHuntId : String) : Except String Hunt :=
  match (GetApplicableHunts d 0).find?
      (fun hunt => pathBase hunt.huntId == inHuntId) with
  | some hunt => Except.ok (FindCollectedArtifacts hunt)
  | none => Except.error "Not found"

/-- A lowercase hex digit character for a value below 16. -/
def hexDigit (n : Nat) : Char :=
  if n < 10 then Char.ofNat (48 + n) else Char.ofNat (87 + n)

/-- hex.Encode of one byte into two lowercase hex characters. -/
def hexByte (b : Nat) : List Char :=
  [hexDigit (b % 256 / 16), hexDigit (b % 16)]

/-- Modelled from the spec: constants.HUNT_PREFIX, the "H." prefix of hunt
ids in the aff4:/hunts namespace. -/
def HUNT_PREFIX : String := "H."

/-- Modelled from the spec: urns.BuildURN joins its components under the
aff4 namespace root, so BuildURN("hunts", x) = "aff4:/hunts/" ++ x. -/
def BuildURN (a b : String) : String := "aff4:/" ++ a ++ "/" ++ b

/-- GetNewHuntId (Go lines 368-376): 4 cryptographically random bytes
(buf := make([]byte, 4)) hex-encoded into an 8-byte buffer
(result := make([]byte, 8)).  The random bytes are parameters here. -/
def GetNewHuntId (b0 b1 b2 b3 : Nat) : String :=
  BuildURN "hunts"
    (HUNT_PREFIX ++ String.mk (hexByte b0 ++ hexByte b1 ++ hexByte b2 ++ hexByte b3))

/-- CreateHunt (Go lines 391-431).  The dispatcher refresh and the
best-effort NotifyClients RPC that follow the write are external effects
not captured in the returned store. -/
def CreateHunt (now b0 b1 b2 b3 : Nat) (hunt : Hunt) (s : Store) :
    Except String String × Store :=
  let hunt1 : Hunt := { hunt with
    huntId := GetNewHuntId b0 b1 b2 b3,
    createTime := now,
    lastUnpauseTime := now }
  let hunt2 : Hunt := if hunt1.expires < hunt1.createTime
    then { hunt1 with expires := now + 604800000000 } else hunt1
  let hunt3 : Hunt := if hunt2.state = HuntState.UNSET
    then { hunt2 with state := HuntState.PAUSED } else hunt2
  (Except.ok hunt3.huntId, s.setObj hunt3.huntId (StoredObject.huntObj hunt3))

/-- ModifyHunt (Go lines 583-630).  Note the unpause guard compares
hunt_obj.State after it has already been overwritten with the requested
state, exactly as in the source.  The dispatcher refresh after the write
is an external effect not captured in the returned store. -/
def ModifyHunt (now : Nat) (hunt_modification : Hunt) (s : Store) :
    Except String Unit × Store :=
  let got := s.getHuntObj hunt_modification.huntId
  match got.1 with
  | Except.error _ => (Except.error "get failed", got.2)
  | Except.ok hunt_obj =>
    if hunt_modification.state ≠ HuntState.UNSET then
      let hunt_obj2 : Hunt := { hunt_obj with state := hunt_modification.state }
      let hunt_obj3 : Hunt :=
        if hunt_obj2.state = HuntState.PAUSED
            ∧ hunt_modification.state = HuntState.RUNNING then
          { hunt_obj2 with
            lastUnpauseTime := now,
            totalClientsWhenUnpaused := hunt_obj2.totalClientsScheduled }
        else hunt_obj2
      (Except.ok (),
        got.2.setObj hunt_modification.huntId (StoredObject.huntObj hunt_obj3))
    else (Except.error "Modification not supported.", got.2)

/-- An item of a flow's collected results, as returned by the external
generic flow-result reader; its payload is opaque to this code. -/
structure FlowResultItem where
  payload : Nat := 0
deriving DecidableEq, Repr

/-- GetHuntInfos (Go lines 479-512): after validating the hunt id prefix,
page the results queue and return the readable HuntInfo records. -/
def GetHuntInfos (inHuntId : String) (inOffset inCount : Nat) (s : Store) :
    Except String (List HuntInfo) × Store :=
  let count := if inCount = 0 then 50 else inCount
  if ("aff4:/hunts/H.".data.isPrefixOf inHuntId.data) = false then
    (Except.error "Invalid hunt id", s)
  else
    let listed := s.listChildren (inHuntId ++ "/results") inOffset count
    let folded := listed.1.foldl
      (fun acc urn =>
        let got := acc.2.getHuntInfo urn
        match got.1 with
        | Except.error _ => (acc.1, got.2)
        | Except.ok info => (acc.1 ++ [info], got.2))
      (([] : List HuntInfo), listed.2)
    (Except.ok folded.1, folded.2)

/-- The inner per-urn loop of GetHuntResults (Go lines 545-578).  Returns
some r when the Go code returns early (error from the flow-result reader,
or enough items collected), none to continue the outer loop; threads the
running offset, the accumulated items and the store. -/
def huntResultsInner (gfr : String → String → Nat → Nat → Except String (List FlowResultItem))
    (inOffset inCount : Nat) :
    List String → Nat → List FlowResultItem → Store →
    Option (Except String (List FlowResultItem)) × Nat × List FlowResultItem × Store
  | [], offset, items, s => (none, offset, items, s)
  | urn :: rest, offset, items, s =>
    let got := s.getHuntInfo urn
    match got.1 with
    | Except.error _ => huntResultsInner gfr inOffset inCount rest offset items got.2
    | Except.ok hunt_info =>
      if offset + resultTotal hunt_info < inOffset then
        huntResultsInner gfr inOffset inCount rest (offset + resultTotal hunt_info)
          items got.2
      else
        let first_result := u64sub inOffset offset
        let count := u64sub inCount offset
        match gfr hunt_info.clientId hunt_info.flowId first_result count with
        | Except.error e => (some (Except.error e), offset, items, got.2)
        | Except.ok flow_items =>
          let offset2 := offset + flow_items.length
          let items2 := items ++ flow_items
          if inCount ≤ items2.length then
            (some (Except.ok items2), offset2, items2, got.2)
          else huntResultsInner gfr inOffset inCount rest offset2 items2 got.2

/-- The outer pagination loop of GetHuntResults (Go lines 532-579), with
fuel; fuel exhaustion behaves like the loop breaking. -/
def huntResultsLoop (gfr : String → String → Nat → Nat → Except String (List FlowResultItem))
    (inHuntId : String) (inOffset inCount : Nat) :
    Nat → Nat → Nat → List FlowResultItem → Store →
    Except String (List FlowResultItem) × Store
  | 0, _, _, items, s => (Except.ok items, s)
  | Nat.succ fuel, children_offset, offset, items, s =>
    let listed := s.listChildren (inHuntId ++ "/results") children_offset 50
    if listed.1 = [] then (Except.ok items, listed.2)
    else
      let inner := huntResultsInner gfr inOffset inCount listed.1 offset items listed.2
      match inner.1 with
      | some r => (r, inner.2.2.2)
      | none =>
        huntResultsLoop gfr inHuntId inOffset inCount fuel
          (children_offset + listed.1.length) inner.2.1 inner.2.2.1 inner.2.2.2

/-- GetHuntResults (Go lines 514-581): after validating the hunt id
prefix, walk the results queue expanding each HuntInfo into the underlying
flow results via the external reader gfr. -/
def GetHuntResults (gfr : String → String → Nat → Nat → Except String (List FlowResultItem))
    (fuel : Nat) (inHuntId : String) (inOffset inCount : Nat) (s : Store) :
    Except String (List FlowResultItem) × Store :=
  let count := if inCount = 0 then 50 else inCount
  if ("aff4:/hunts/H.".data.isPrefixOf inHuntId.data) = false then
    (Except.error "Invalid hunt id", s)
  else huntResultsLoop gfr inHuntId inOffset count fuel 0 0 [] s

theorem u64sub_eq_sub {a b : Nat} (hb : b ≤ a) (ha : a < U64) :
    u64sub a b = a - b := by
  unfold u64sub U64 at *
  omega

theorem u64add_eq_add {a b : Nat} (h : a + b < U64) : u64add a b = a + b := by
  unfold u64add U64 at *
  omega

theorem u64mul_eq_mul {a b : Nat} (h : a * b < U64) : u64mul a b = a * b := by
  unfold u64mul
  exact Nat.mod_eq_of_lt h

/-- The stored hunt of the C1 scenario: PAUSED, unpaused long ago, five
clients already scheduled. -/
def c1StoredHunt : Hunt :=
  { huntId := "aff4:/hunts/H.00112233", createTime := 500,
    state := HuntState.PAUSED, lastUnpauseTime := 1000,
    totalClientsScheduled := 5 }

/-- The store holding only the C1 hunt object. -/
def c1Store : Store :=
  ⟨⟨[("aff4:/hunts/H.00112233", StoredObject.huntObj c1StoredHunt)]⟩, []⟩

/-- The ModifyHunt patch of the C1 scenario: set State to RUNNING. -/
def c1Patch : Hunt := { huntId := "aff4:/hunts/H.00112233", state := HuntState.RUNNING }

/-- C1: evaluating ModifyHunt at a PAUSED hunt with a RUNNING patch at
now = 2000 shows the persisted hunt keeps LastUnpauseTime = 1000 (not the
current time) and TotalClientsWhenUnpaused = 0 (not TotalClientsScheduled
= 5): the unpause adjustment the claim describes never happens, because
the source compares hunt_obj.State with PAUSED only after overwriting it
with the requested RUNNING state. -/
theorem modify_hunt_unpause_not_applied :
    (ModifyHunt 2000 c1Patch c1Store).1 = Except.ok ()
    ∧ (ModifyHunt 2000 c1Patch c1Store).2.db.lookupObj "aff4:/hunts/H.00112233"
      = some (StoredObject.huntObj { c1StoredHunt with state := HuntState.RUNNING })
    ∧ ({ c1StoredHunt with state := HuntState.RUNNING }).lastUnpauseTime = 1000
    ∧ ({ c1StoredHunt with state := HuntState.RUNNING }).lastUnpauseTime ≠ 2000
    ∧ ({ c1StoredHunt with state := HuntState.RUNNING }).totalClientsWhenUnpaused = 0
    ∧ ({ c1StoredHunt with state := HuntState.RUNNING }).totalClientsWhenUnpaused
        ≠ c1StoredHunt.totalClientsScheduled := by
  exact ⟨rfl, rfl, rfl, by decide, rfl, by decide⟩

/-- C5: Update on a hunt whose state is not RUNNING is the identity: the
per-hunt step passes the hunt through untouched (all counters unchanged)
and issues no store operation at all, and a one-hunt Update likewise
returns the store exactly as given. -/
theorem update_skips_non_running :
    (∀ (fuel now : Nat) (launch : HuntInfo → Except String String)
       (acc : List Hunt) (s : Store) (hunt : Hunt),
       hunt.state ≠ HuntState.RUNNING →
       updateHunt fuel now launch (acc, s) hunt = (acc ++ [hunt], s))
    ∧ (∀ (fuel now : Nat) (launch : HuntInfo → Except String String)
       (s : Store) (hunt : Hunt),
       hunt.state ≠ HuntState.RUNNING →
       Update fuel now launch [hunt] s = ([hunt], s)) := by
  constructor
  · intro fuel now launch acc s hunt h
    unfold updateHunt
    rw [if_neg h]
  · intro fuel now launch s hunt h
    show updateHunt fuel now launch ([], s) hunt = ([hunt], s)
    unfold updateHunt
    rw [if_neg h]
    simp

/-- The PAUSED hunt of the C5 witness. -/
def c5Hunt : Hunt :=
  { huntId := "aff4:/hunts/H.0f0f0f0f", createTime := 10,
    state := HuntState.PAUSED, totalClientsScheduled := 3 }

/-- A store with a completed entry for the C5 witness hunt, which Update
must not touch while the hunt is PAUSED. -/
def c5Store : Store :=
  ⟨⟨[("aff4:/hunts/H.0f0f0f0f/completed/C.1", StoredObject.corrupt)]⟩, []⟩

/-- Witness for update_skips_non_running at a concrete PAUSED hunt. -/
theorem update_skips_non_running_witness :
    c5Hunt.state ≠ HuntState.RUNNING
    ∧ Update 3 99 (fun _ => Except.error "unused") [c5Hunt] c5Store
      = ([c5Hunt], c5Store) :=
  ⟨by decide, update_skips_non_running.2 3 99 (fun _ => Except.error "unused")
    c5Store c5Hunt (by decide)⟩

theorem lookupObj_delObj_self (db : DB) (u : String) :
    (db.delObj u).lookupObj u = none := by
  unfold DB.delObj DB.lookupObj
  rw [Option.map_eq_none']
  rw [List.find?_eq_none]
  intro x hx
  have h2 := (List.mem_filter.mp hx).2
  simp only [bne_iff_ne, ne_eq] at h2
  simp only [beq_iff_eq]
  exact h2

theorem lookupObj_delObj_none (db : DB) (u v : String)
    (h : db.lookupObj u = none) : (db.delObj v).lookupObj u = none := by
  unfold DB.delObj DB.lookupObj at *
  rw [Option.map_eq_none'] at h ⊢
  rw [List.find?_eq_none] at h ⊢
  intro x hx
  exact h x (List.mem_filter.mp hx).1

theorem deleteUrns_preserves_none : ∀ (urns : List String) (s : Store) (u : String),
    s.db.lookupObj u = none → (deleteUrns urns s).db.lookupObj u = none := by
  intro urns
  induction urns with
  | nil => intro s u h; exact h
  | cons x rest ih =>
    intro s u h
    exact ih (s.delObj x) u (lookupObj_delObj_none s.db u x h)

theorem deleteUrns_lookup_none : ∀ (urns : List String) (s : Store) (u : String),
    u ∈ urns → (deleteUrns urns s).db.lookupObj u = none := by
  intro urns
  induction urns with
  | nil => intro s u h; cases h
  | cons x rest ih =>
    intro s u h
    rcases List.mem_cons.mp h with rfl | hmem
    · exact deleteUrns_preserves_none rest (s.delObj u) u (lookupObj_delObj_self s.db u)
    · exact ih (s.delObj x) u hmem

/-- C2: for a RUNNING hunt the scheduler step computes expected as
(ClientRate or 20) * floor(seconds since unpause) / 60 +
TotalClientsWhenUnpaused (the stated formula, under no-overflow side
conditions on the uint64 arithmetic), does nothing at all when
expected <= TotalClientsScheduled, and never lists more than
expected - TotalClientsScheduled pending entries. -/
theorem scheduler_rate_and_deficit (now : Nat) (hunt : Hunt) (s : Store)
    (launch : HuntInfo → Except String String)
    (h1 : huntLastUnpause hunt ≤ now) (h2 : now < U64)
    (h3 : huntClientRate hunt * secondsSinceUnpause now hunt < U64)
    (h4 : huntClientRate hunt * secondsSinceUnpause now hunt / 60
        + hunt.totalClientsWhenUnpaused < U64) :
    expectedClients now hunt
      = (if hunt.clientRate = 0 then 20 else hunt.clientRate)
        * ((now - (if hunt.lastUnpauseTime = 0 then hunt.createTime
                   else hunt.lastUnpauseTime)) / 1000000) / 60
        + hunt.totalClientsWhenUnpaused
    ∧ (expectedClients now hunt ≤ hunt.totalClientsScheduled →
        ScheduleClientsForHunt now launch hunt s = (false, hunt, s))
    ∧ (pulledPendingUrns now hunt s).length
        ≤ expectedClients now hunt - hunt.totalClientsScheduled := by
  refine ⟨?_, ?_, ?_⟩
  · have hsec : secondsSinceUnpause now hunt
        = (now - huntLastUnpause hunt) / 1000000 := by
      unfold secondsSinceUnpause
      rw [u64sub_eq_sub h1 h2]
    unfold expectedClients
    rw [u64mul_eq_mul h3, u64add_eq_add h4, hsec]
    unfold huntClientRate huntLastUnpause
    rfl
  · intro hle
    unfold ScheduleClientsForHunt
    rw [if_neg (Nat.not_lt.mpr hle)]
  · have heq : pulledPendingUrns now hunt s
        = ((((s.db.entries.map Prod.fst).filter
              (childOf (hunt.huntId ++ "/pending"))).drop 0).take
            (clientsToGet now hunt)) := rfl
    rw [heq]
    exact le_trans (List.length_take_le _ _) (le_refl _)

/-- The RUNNING hunt of the C2 witness: everything at its zero default, so
expected = 20*0/60 + 0 = 0 and nothing is due. -/
def c2wHunt : Hunt := { huntId := "aff4:/hunts/H.abcd0123", state := HuntState.RUNNING }

/-- The empty store of the C2 witness. -/
def c2wStore : Store := ⟨⟨[]⟩, []⟩

/-- Witness for scheduler_rate_and_deficit at a concrete hunt with
expected = 0 <= TotalClientsScheduled. -/
theorem scheduler_rate_and_deficit_witness :
    expectedClients 0 c2wHunt = 0
    ∧ ScheduleClientsForHunt 0 (fun _ => Except.ok "F.1") c2wHunt c2wStore
      = (false, c2wHunt, c2wStore)
    ∧ (pulledPendingUrns 0 c2wHunt c2wStore).length = 0 := by
  have h := scheduler_rate_and_deficit 0 c2wHunt c2wStore (fun _ => Except.ok "F.1")
    (by decide) (by decide) (by decide) (by decide)
  exact ⟨by decide, h.2.1 (by decide), by decide⟩

/-- C6: whenever the scheduler has a deficit and pulls pending entries,
every pulled urn is absent from the store after the call, whatever the
launch function and the per-entry read outcomes did. -/
theorem pending_entries_always_deleted (now : Nat)
    (launch : HuntInfo → Except String String) (hunt : Hunt) (s : Store)
    (hdue : hunt.totalClientsScheduled < expectedClients now hunt) :
    ∀ urn ∈ pulledPendingUrns now hunt s,
      ((ScheduleClientsForHunt now launch hunt s).2.2).db.lookupObj urn = none := by
  intro urn hmem
  have heq : pulledPendingUrns now hunt s
      = (s.listChildren (hunt.huntId ++ "/pending") 0 (clientsToGet now hunt)).1 := rfl
  rw [heq] at hmem
  unfold ScheduleClientsForHunt
  rw [if_pos hdue]
  simp only
  by_cases hnil :
      (s.listChildren (hunt.huntId ++ "/pending") 0 (clientsToGet now hunt)).1 = []
  · exact absurd (hnil ▸ hmem) (List.not_mem_nil urn)
  · rw [if_neg hnil]
    exact deleteUrns_lookup_none _ _ _ hmem

/-- The RUNNING hunt of the C6 witness, 60 seconds old with default rate,
so 20 clients are due. -/
def c6wHunt : Hunt := { huntId := "aff4:/hunts/H.aa", state := HuntState.RUNNING }

/-- A store with one pending entry for the C6 witness hunt. -/
def c6wStore : Store :=
  ⟨⟨[("aff4:/hunts/H.aa/pending/C.1",
      StoredObject.huntInfoObj { clientId := "C.1", huntId := "aff4:/hunts/H.aa" })]⟩, []⟩

/-- Witness for pending_entries_always_deleted at a concrete pull. -/
theorem pending_entries_always_deleted_witness :
    c6wHunt.totalClientsScheduled < expectedClients 60000000 c6wHunt
    ∧ ((ScheduleClientsForHunt 60000000 (fun _ => Except.ok "F.77") c6wHunt
        c6wStore).2.2).db.lookupObj "aff4:/hunts/H.aa/pending/C.1" = none :=
  ⟨by decide,
    pending_entries_always_deleted 60000000 (fun _ => Except.ok "F.77") c6wHunt
      c6wStore (by decide) "aff4:/hunts/H.aa/pending/C.1" (by decide)⟩

/-- The three destination queues of the triage step. -/
inductive TriageClass where
  | errorsQ
  | resultsQ
  | noResultsQ
deriving DecidableEq, Repr

/-- Classification in the words of the spec: an unreadable record, a
missing Result or Result.State = ERROR files under errors; otherwise
TotalResults > 0 files under results and TotalResults = 0 under
no_results. -/
def specTriageClass (res : Except Unit HuntInfo) : TriageClass :=
  match res with
  | Except.error _ => TriageClass.errorsQ
  | Except.ok summary =>
    match summary.result with
    | none => TriageClass.errorsQ
    | some r =>
      if r.state = FlowState.ERROR then TriageClass.errorsQ
      else if r.totalResults > 0 then TriageClass.resultsQ
      else TriageClass.noResultsQ

/-- The sum of the three triage counters of a hunt. -/
def triageCounterSum (h : Hunt) : Nat :=
  h.totalClientsWithErrors + h.totalClientsWithResults + h.totalClientsWithoutResults

theorem sortOne_spec (hid : String) (m : Bool) (c : Nat) (hunt : Hunt)
    (s : Store) (urn : String) :
    sortOne hid (m, c, hunt, s) urn
      = (match specTriageClass (s.db.readHuntInfo urn) with
         | TriageClass.errorsQ =>
           (true, c + 1,
            { hunt with totalClientsWithErrors := hunt.totalClientsWithErrors + 1 },
            (s.getHuntInfo urn).2.setObj
              (hid ++ "/errors/" ++ (readSummary (s.db.readHuntInfo urn)).clientId)
              (StoredObject.huntInfoObj (readSummary (s.db.readHuntInfo urn))))
         | TriageClass.resultsQ =>
           (true, c + 1,
            { hunt with totalClientsWithResults := hunt.totalClientsWithResults + 1 },
            (s.getHuntInfo urn).2.setObj
              (hid ++ "/results/" ++ (readSummary (s.db.readHuntInfo urn)).clientId)
              (StoredObject.huntInfoObj (readSummary (s.db.readHuntInfo urn))))
         | TriageClass.noResultsQ =>
           (true, c + 1,
            { hunt with totalClientsWithoutResults := hunt.totalClientsWithoutResults + 1 },
            (s.getHuntInfo urn).2.setObj
              (hid ++ "/no_results/" ++ (readSummary (s.db.readHuntInfo urn)).clientId)
              (StoredObject.huntInfoObj (readSummary (s.db.readHuntInfo urn))))) := by
  cases hres : s.db.readHuntInfo urn with
  | error e =>
    simp [sortOne, Store.getHuntInfo, readSummary, specTriageClass, hres]
  | ok summary =>
    cases hr : summary.result with
    | none =>
      simp [sortOne, Store.getHuntInfo, readSummary, specTriageClass, hres, hr]
    | some r =>
      by_cases hstate : r.state = FlowState.ERROR
      · simp [sortOne, Store.getHuntInfo, readSummary, specTriageClass, hres, hr, hstate]
      · by_cases htot : r.totalResults > 0
        · simp [sortOne, Store.getHuntInfo, readSummary, specTriageClass,
            resultTotal, hres, hr, hstate, htot]
        · have ht0 : r.totalResults = 0 := by omega
          simp [sortOne, Store.getHuntInfo, readSummary, specTriageClass,
            resultTotal, hres, hr, hstate, htot, ht0]

theorem sortOne_count_sum (hid : String) (acc : Bool × Nat × Hunt × Store)
    (urn : String) :
    (sortOne hid acc urn).2.1 = acc.2.1 + 1
    ∧ triageCounterSum (sortOne hid acc urn).2.2.1
      = triageCounterSum acc.2.2.1 + 1 := by
  obtain ⟨m, c, hunt, s⟩ := acc
  rw [sortOne_spec]
  cases specTriageClass (s.db.readHuntInfo urn) <;>
    simp [triageCounterSum] <;> omega

theorem sortFold_count_sum (hid : String) : ∀ (urns : List String)
    (acc : Bool × Nat × Hunt × Store),
    (urns.foldl (sortOne hid) acc).2.1 = acc.2.1 + urns.length
    ∧ triageCounterSum (urns.foldl (sortOne hid) acc).2.2.1
      = triageCounterSum acc.2.2.1 + urns.length := by
  intro urns
  induction urns with
  | nil => intro acc; simp
  | cons x rest ih =>
    intro acc
    have hstep := sortOne_count_sum hid acc x
    have hrest := ih (sortOne hid acc x)
    rw [List.foldl_cons]
    refine ⟨?_, ?_⟩
    · rw [hrest.1, hstep.1, List.length_cons]
      omega
    · rw [hrest.2, hstep.2, List.length_cons]
      omega

theorem sortResults_count_sum (hunt : Hunt) (s : Store) :
    (SortResultsForHunt hunt s).2.1
      = (s.db.listChildren (hunt.huntId ++ "/completed") 0 100).length
    ∧ triageCounterSum (SortResultsForHunt hunt s).2.2.1
      = triageCounterSum hunt + (SortResultsForHunt hunt s).2.1 := by
  unfold SortResultsForHunt
  by_cases hnil : (s.listChildren (hunt.huntId ++ "/completed") 0 100).1 = []
  · rw [if_pos hnil]
    have : s.db.listChildren (hunt.huntId ++ "/completed") 0 100 = [] := hnil
    rw [this]
    simp
  · rw [if_neg hnil]
    have hfold := sortFold_count_sum hunt.huntId
      (s.listChildren (hunt.huntId ++ "/completed") 0 100).1
      (false, 0, hunt, (s.listChildren (hunt.huntId ++ "/completed") 0 100).2)
    simp only at hfold ⊢
    refine ⟨?_, ?_⟩
    · rw [hfold.1]
      exact Nat.zero_add _
    · rw [hfold.2, hfold.1]
      rw [Nat.zero_add]

/-- C3: each completed-queue entry processed by one triage call is
classified exactly as the spec states (read failure, missing Result or
Result.State = ERROR to the errors queue with the error counter bumped by
one; TotalResults > 0 to results; TotalResults = 0 to no_results), and
over a whole _SortResultsForHunt call the number of processed entries
equals the page length and the three counters together grow by exactly
that number, so each processed entry bumps exactly one counter once. -/
theorem triage_classification :
    (∀ (hid : String) (m : Bool) (c : Nat) (hunt : Hunt) (s : Store) (urn : String),
      specTriageClass (s.db.readHuntInfo urn) = TriageClass.errorsQ →
      sortOne hid (m, c, hunt, s) urn
        = (true, c + 1,
           { hunt with totalClientsWithErrors := hunt.totalClientsWithErrors + 1 },
           (s.getHuntInfo urn).2.setObj
             (hid ++ "/errors/" ++ (readSummary (s.db.readHuntInfo urn)).clientId)
             (StoredObject.huntInfoObj (readSummary (s.db.readHuntInfo urn)))))
    ∧ (∀ (hid : String) (m : Bool) (c : Nat) (hunt : Hunt) (s : Store) (urn : String),
      specTriageClass (s.db.readHuntInfo urn) = TriageClass.resultsQ →
      sortOne hid (m, c, hunt, s) urn
        = (true, c + 1,
           { hunt with totalClientsWithResults := hunt.totalClientsWithResults + 1 },
           (s.getHuntInfo urn).2.setObj
             (hid ++ "/results/" ++ (readSummary (s.db.readHuntInfo urn)).clientId)
             (StoredObject.huntInfoObj (readSummary (s.db.readHuntInfo urn)))))
    ∧ (∀ (hid : String) (m : Bool) (c : Nat) (hunt : Hunt) (s : Store) (urn : String),
      specTriageClass (s.db.readHuntInfo urn) = TriageClass.noResultsQ →
      sortOne hid (m, c, hunt, s) urn
        = (true, c + 1,
           { hunt with totalClientsWithoutResults := hunt.totalClientsWithoutResults + 1 },
           (s.getHuntInfo urn).2.setObj
             (hid ++ "/no_results/" ++ (readSummary (s.db.readHuntInfo urn)).clientId)
             (StoredObject.huntInfoObj (readSummary (s.db.readHuntInfo urn)))))
    ∧ (∀ (hunt : Hunt) (s : Store),
      (SortResultsForHunt hunt s).2.1
        = (s.db.listChildren (hunt.huntId ++ "/completed") 0 100).length
      ∧ triageCounterSum (SortResultsForHunt hunt s).2.2.1
        = triageCounterSum hunt + (SortResultsForHunt hunt s).2.1) := by
  refine ⟨?_, ?_, ?_, ?_⟩
  · intro hid m c hunt s urn hclass
    rw [sortOne_spec, hclass]
  · intro hid m c hunt s urn hclass
    rw [sortOne_spec, hclass]
  · intro hid m c hunt s urn hclass
    rw [sortOne_spec, hclass]
  · intro hunt s
    exact sortResults_count_sum hunt s

/-- The hunt of the C3 witness. -/
def c3wHunt : Hunt := { huntId := "aff4:/hunts/H.bb", state := HuntState.RUNNING }

/-- The completed entry of an errored flow for the C3 witness. -/
def c3wInfoErr : HuntInfo :=
  { clientId := "C.err", result := some { state := FlowState.ERROR } }

/-- The completed entry of a flow with four results for the C3 witness. -/
def c3wInfoRes : HuntInfo :=
  { clientId := "C.res",
    result := some { state := FlowState.TERMINATED, totalResults := 4 } }

/-- The completed entry of a flow with zero results for the C3 witness. -/
def c3wInfoNone : HuntInfo :=
  { clientId := "C.none",
    result := some { state := FlowState.TERMINATED, totalResults := 0 } }

/-- A store whose completed queue holds one entry for each triage class. -/
def c3wStore : Store :=
  ⟨⟨[("aff4:/hunts/H.bb/completed/C.err", StoredObject.huntInfoObj c3wInfoErr),
     ("aff4:/hunts/H.bb/completed/C.res", StoredObject.huntInfoObj c3wInfoRes),
     ("aff4:/hunts/H.bb/completed/C.none", StoredObject.huntInfoObj c3wInfoNone)]⟩,
   []⟩

/-- Witness for triage_classification: the error-class case applied at a
concrete entry, and the whole-call accounting at a concrete store. -/
theorem triage_classification_witness :
    specTriageClass (c3wStore.db.readHuntInfo "aff4:/hunts/H.bb/completed/C.err")
      = TriageClass.errorsQ
    ∧ sortOne "aff4:/hunts/H.bb" (false, 0, c3wHunt, c3wStore)
        "aff4:/hunts/H.bb/completed/C.err"
      = (true, 1,
         { c3wHunt with totalClientsWithErrors := c3wHunt.totalClientsWithErrors + 1 },
         (c3wStore.getHuntInfo "aff4:/hunts/H.bb/completed/C.err").2.setObj
           ("aff4:/hunts/H.bb" ++ "/errors/"
             ++ (readSummary (c3wStore.db.readHuntInfo
                   "aff4:/hunts/H.bb/completed/C.err")).clientId)
           (StoredObject.huntInfoObj (readSummary (c3wStore.db.readHuntInfo
              "aff4:/hunts/H.bb/completed/C.err"))))
    ∧ (SortResultsForHunt c3wHunt c3wStore).2.1 = 3
    ∧ triageCounterSum (SortResultsForHunt c3wHunt c3wStore).2.2.1 = 3 := by
  have h1 := triage_classification.1 "aff4:/hunts/H.bb" false 0 c3wHunt c3wStore
    "aff4:/hunts/H.bb/completed/C.err" (by decide)
  exact ⟨by decide, h1, by decide, by decide⟩

theorem listChildren_nil (db : DB) (urn : String) (off lim : Nat)
    (h : ∀ k ∈ db.entries.map Prod.fst, childOf urn k = false) :
    db.listChildren urn off lim = [] := by
  unfold DB.listChildren
  have hf : (db.entries.map Prod.fst).filter (childOf urn) = [] := by
    rw [List.filter_eq_nil_iff]
    intro a ha
    simp [h a ha]
  rw [hf]
  simp

/-- C7: both result-reading operations reject a hunt id that does not
start with "aff4:/hunts/H." with the invalid-id error and an unchanged
store (no operation of any kind is issued), and with a well-formed id
whose results queue is empty they return an empty ok result. -/
theorem hunt_results_id_validation :
    (∀ (inHuntId : String) (inOffset inCount : Nat) (s : Store),
      ("aff4:/hunts/H.".data.isPrefixOf inHuntId.data) = false →
      GetHuntInfos inHuntId inOffset inCount s = (Except.error "Invalid hunt id", s))
    ∧ (∀ (gfr : String → String → Nat → Nat → Except String (List FlowResultItem))
        (fuel : Nat) (inHuntId : String) (inOffset inCount : Nat) (s : Store),
      ("aff4:/hunts/H.".data.isPrefixOf inHuntId.data) = false →
      GetHuntResults gfr fuel inHuntId inOffset inCount s
        = (Except.error "Invalid hunt id", s))
    ∧ (∀ (inHuntId : String) (inOffset inCount : Nat) (s : Store),
      ("aff4:/hunts/H.".data.isPrefixOf inHuntId.data) = true →
      (∀ k ∈ s.db.entries.map Prod.fst, childOf (inHuntId ++ "/results") k = false) →
      (GetHuntInfos inHuntId inOffset inCount s).1 = Except.ok []
      ∧ ∀ (gfr : String → String → Nat → Nat → Except String (List FlowResultItem))
          (fuel : Nat),
        (GetHuntResults gfr fuel inHuntId inOffset inCount s).1 = Except.ok []) := by
  refine ⟨?_, ?_, ?_⟩
  · intro inHuntId inOffset inCount s h
    simp [GetHuntInfos, h]
  · intro gfr fuel inHuntId inOffset inCount s h
    simp [GetHuntResults, h]
  · intro inHuntId inOffset inCount s hpre hempty
    constructor
    · have hlist : s.db.listChildren (inHuntId ++ "/results") inOffset
          (if inCount = 0 then 50 else inCount) = [] :=
        listChildren_nil s.db (inHuntId ++ "/results") inOffset _ hempty
      simp [GetHuntInfos, hpre, Store.listChildren, hlist]
    · intro gfr fuel
      cases fuel with
      | zero => simp [GetHuntResults, hpre, huntResultsLoop]
      | succ n =>
        have hlist : s.db.listChildren (inHuntId ++ "/results") 0 50 = [] :=
          listChildren_nil s.db (inHuntId ++ "/results") 0 50 hempty
        simp [GetHuntResults, hpre, huntResultsLoop, Store.listChildren, hlist]

/-- Witness for hunt_results_id_validation: a malformed id against a
nonempty store, and a well-formed id against an empty store. -/
theorem hunt_results_id_validation_witness :
    GetHuntInfos "not-a-hunt-id" 0 0 c1Store = (Except.error "Invalid hunt id", c1Store)
    ∧ GetHuntResults (fun _ _ _ _ => Except.ok []) 7 "not-a-hunt-id" 0 0 c1Store
      = (Except.error "Invalid hunt id", c1Store)
    ∧ (GetHuntInfos "aff4:/hunts/H.ABCDEF0123456789" 0 0 c2wStore).1 = Except.ok []
    ∧ (GetHuntResults (fun _ _ _ _ => Except.ok []) 7
        "aff4:/hunts/H.ABCDEF0123456789" 0 0 c2wStore).1 = Except.ok [] := by
  have h3 := hunt_results_id_validation.2.2 "aff4:/hunts/H.ABCDEF0123456789" 0 0
    c2wStore (by decide) (by intro k hk; cases hk)
  exact ⟨hunt_results_id_validation.1 "not-a-hunt-id" 0 0 c1Store (by decide),
    hunt_results_id_validation.2.1 (fun _ _ _ _ => Except.ok []) 7 "not-a-hunt-id"
      0 0 c1Store (by decide),
    h3.1, h3.2 (fun _ _ _ _ => Except.ok []) 7⟩

/-- C9: whenever the dispatcher rebuild fails, Refresh publishes an empty
mirror in place of whatever was there before — it returns normally rather
than propagating the failure, and readers of the published mirror (the
applicable-hunts filter and ListHunts pagination) see no hunts and no
error. -/
theorem refresh_failure_publishes_empty (fuel now : Nat)
    (launch : HuntInfo → Except String String) (s : Store)
    (c : HuntDispatcherContainer) (e : Unit)
    (h : (NewHuntDispatcher fuel now launch s).1 = Except.error e) :
    (Refresh fuel now launch s c).1 = { dispatcher := some { hunts := [] } }
    ∧ (∀ ts : Nat, GetApplicableHunts { hunts := [] } ts = [])
    ∧ (∀ offset count : Nat, ListHunts { hunts := [] } offset count = []) := by
  refine ⟨?_, ?_, ?_⟩
  · unfold Refresh
    simp only
    rw [h]
  · intro ts
    rfl
  · intro offset count
    cases h2 : u64add offset count <;> rfl

/-- The store of the C9 witness: the hunts namespace lists one object that
fails to decode, so NewHuntDispatcher fails. -/
def c9wStore : Store := ⟨⟨[("aff4:/hunts/H.bad", StoredObject.corrupt)]⟩, []⟩

/-- Witness for refresh_failure_publishes_empty at a concrete failing
store. -/
theorem refresh_failure_publishes_empty_witness :
    (NewHuntDispatcher 2 5 (fun _ => Except.ok "F.9") c9wStore).1 = Except.error ()
    ∧ (Refresh 2 5 (fun _ => Except.ok "F.9") c9wStore
        { dispatcher := some { hunts := [c5Hunt] } }).1
      = { dispatcher := some { hunts := [] } }
    ∧ GetApplicableHunts { hunts := [] } 0 = []
    ∧ ListHunts { hunts := [] } 0 10 = [] := by
  have h := refresh_failure_publishes_empty 2 5 (fun _ => Except.ok "F.9") c9wStore
    { dispatcher := some { hunts := [c5Hunt] } } () (by rfl)
  exact ⟨by rfl, h.1, h.2.1 0, h.2.2 0 10⟩

theorem listHuntsAux_collect (o b : Nat) : ∀ (l : List Hunt) (idx : Nat),
    o ≤ idx → listHuntsAux o b idx l = l.take (b - idx) := by
  intro l
  induction l with
  | nil => intro idx h; simp [listHuntsAux]
  | cons x rest ih =>
    intro idx h
    unfold listHuntsAux
    rw [if_neg (Nat.not_lt.mpr h)]
    by_cases hb : b ≤ idx
    · rw [if_pos hb]
      have hz : b - idx = 0 := by omega
      rw [hz]
      rfl
    · rw [if_neg hb]
      rw [ih (idx + 1) (by omega)]
      have h2 : b - idx = (b - (idx + 1)) + 1 := by omega
      rw [h2, List.take_succ_cons]

theorem listHuntsAux_skip (o b : Nat) : ∀ (k : Nat) (l : List Hunt) (idx : Nat),
    idx + k = o → listHuntsAux o b idx l = (l.drop k).take (b - o) := by
  intro k
  induction k with
  | zero =>
    intro l idx h
    have hi : idx = o := by omega
    subst hi
    rw [listHuntsAux_collect idx b l idx (le_refl idx)]
    rfl
  | succ n ih =>
    intro l idx h
    cases l with
    | nil => simp [listHuntsAux]
    | cons x rest =>
      unfold listHuntsAux
      rw [if_pos (show idx < o by omega)]
      rw [ih rest (idx + 1) (by omega)]
      rfl

theorem listHunts_eq (d : HuntDispatcher) (offset count : Nat) :
    ListHunts d offset count
      = ((GetApplicableHunts d 0).drop offset).take (u64add offset count - offset) := by
  unfold ListHunts
  exact listHuntsAux_skip offset (u64add offset count) offset
    (GetApplicableHunts d 0) 0 (by omega)

/-- The hunt of the C8 counterexample: present in the mirror but with
creation time 0, the protobuf zero value. -/
def c8Hunt : Hunt := { huntId := "aff4:/hunts/H.00000000", state := HuntState.RUNNING }

/-- The one-hunt mirror of the C8 counterexample. -/
def c8Mirror : HuntDispatcher := { hunts := [c8Hunt] }

/-- C8 counterexample: a mirrored hunt whose creation time is 0 is not
eligible under watermark 0 — GetApplicableHunts(0) filters with a strict
comparison, so "watermark 0 = every hunt in the mirror" fails: the hunt is
in the mirror yet ListHunts returns nothing. -/
theorem list_hunts_watermark_counterexample :
    c8Hunt ∈ c8Mirror.hunts
    ∧ c8Hunt ∉ GetApplicableHunts c8Mirror 0
    ∧ ListHunts c8Mirror 0 5 = [] := by
  exact ⟨by decide, by decide, by rfl⟩

/-- C8 (amended): list_hunts returns, in order, at most count hunts
starting at index offset of the sequence of mirrored hunts whose creation
time strictly exceeds the watermark; with watermark 0 exactly the hunts
with nonzero creation time are eligible (a hunt whose creation time is 0
is excluded). -/
theorem list_hunts_pagination (d : HuntDispatcher) (offset count : Nat) :
    ListHunts d offset count
      = ((GetApplicableHunts d 0).drop offset).take (u64add offset count - offset)
    ∧ (ListHunts d offset count).length ≤ count
    ∧ (offset + count < U64 →
        ListHunts d offset count = ((GetApplicableHunts d 0).drop offset).take count)
    ∧ (∀ (ts : Nat) (hunt : Hunt),
        hunt ∈ GetApplicableHunts d ts ↔ hunt ∈ d.hunts ∧ ts < hunt.createTime) := by
  have he := listHunts_eq d offset count
  refine ⟨he, ?_, ?_, ?_⟩
  · rw [he]
    have hm : u64add offset count ≤ offset + count := by
      unfold u64add
      exact Nat.mod_le _ _
    have h1 : u64add offset count - offset ≤ count := by omega
    exact le_trans (List.length_take_le _ _) h1
  · intro hlt
    rw [he, u64add_eq_add hlt]
    congr 1
    omega
  · intro ts hunt
    unfold GetApplicableHunts
    rw [List.mem_filter]
    simp

/-- First hunt of the C8 witness mirror. -/
def c8waHunt : Hunt := { huntId := "aff4:/hunts/H.000000aa", createTime := 1 }

/-- Second hunt of the C8 witness mirror. -/
def c8wbHunt : Hunt := { huntId := "aff4:/hunts/H.000000bb", createTime := 2 }

/-- Third hunt of the C8 witness mirror. -/
def c8wcHunt : Hunt := { huntId := "aff4:/hunts/H.000000cc", createTime := 3 }

/-- The three-hunt mirror of the C8 witness. -/
def c8wMirror : HuntDispatcher := { hunts := [c8waHunt, c8wbHunt, c8wcHunt] }

/-- Witness for list_hunts_pagination at a concrete mirror and page. -/
theorem list_hunts_pagination_witness :
    1 + 1 < U64
    ∧ ListHunts c8wMirror 1 1 = ((GetApplicableHunts c8wMirror 0).drop 1).take 1
    ∧ (ListHunts c8wMirror 1 1).length ≤ 1
    ∧ (c8wbHunt ∈ GetApplicableHunts c8wMirror 0
        ↔ c8wbHunt ∈ c8wMirror.hunts ∧ 0 < c8wbHunt.createTime) := by
  have h := list_hunts_pagination c8wMirror 1 1
  exact ⟨by decide, h.2.2.1 (by decide), h.2.1, h.2.2.2 0 c8wbHunt⟩

/-- Character class of lowercase hex digits. -/
def isLowerHexChar (c : Char) : Bool :=
  decide (('0' ≤ c ∧ c ≤ '9') ∨ ('a' ≤ c ∧ c ≤ 'f'))

theorem isLowerHexChar_hexDigit : ∀ n : Nat, n < 16 →
    isLowerHexChar (hexDigit n) = true := by decide

/-- C4 counterexample: at the concrete random bytes 0x12 0x34 0xab 0xcd
the produced hunt id is aff4:/hunts/H.1234abcd, whose suffix after the
fixed prefix has 8 characters, so no 16-character hex suffix exists: the
id is derived from 4 random bytes into 8 hex characters, not 8 bytes into
16. -/
theorem hunt_id_sixteen_hex_counterexample :
    GetNewHuntId 18 52 171 205 = "aff4:/hunts/H.1234abcd"
    ∧ ¬ ∃ s : String, GetNewHuntId 18 52 171 205 = "aff4:/hunts/H." ++ s
        ∧ s.length = 16 := by
  constructor
  · rfl
  · rintro ⟨s, hs, h16⟩
    have h0 : GetNewHuntId 18 52 171 205 = "aff4:/hunts/H.1234abcd" := rfl
    rw [h0] at hs
    have hL := congrArg String.length hs
    rw [String.length_append, h16] at hL
    exact absurd hL (by decide)

/-- C4 (amended): every hunt id produced for CreateHunt has the form
aff4:/hunts/H.<8 lowercase hex characters>, with the hex suffix derived
from the 4 cryptographically random bytes read by GetNewHuntId. -/
theorem hunt_id_format (b0 b1 b2 b3 : Nat) :
    (∃ s : String, GetNewHuntId b0 b1 b2 b3 = "aff4:/hunts/H." ++ s
      ∧ s.length = 8 ∧ s.data.all isLowerHexChar = true)
    ∧ (∀ (now : Nat) (hunt : Hunt) (st : Store),
        (CreateHunt now b0 b1 b2 b3 hunt st).1
          = Except.ok (GetNewHuntId b0 b1 b2 b3)) := by
  constructor
  · refine ⟨String.mk (hexByte b0 ++ hexByte b1 ++ hexByte b2 ++ hexByte b3),
      ?_, ?_, ?_⟩
    · rfl
    · rfl
    · have e1 : isLowerHexChar (hexDigit (b0 % 256 / 16)) = true :=
        isLowerHexChar_hexDigit _ (by omega)
      have e2 : isLowerHexChar (hexDigit (b0 % 16)) = true :=
        isLowerHexChar_hexDigit _ (by omega)
      have e3 : isLowerHexChar (hexDigit (b1 % 256 / 16)) = true :=
        isLowerHexChar_hexDigit _ (by omega)
      have e4 : isLowerHexChar (hexDigit (b1 % 16)) = true :=
        isLowerHexChar_hexDigit _ (by omega)
      have e5 : isLowerHexChar (hexDigit (b2 % 256 / 16)) = true :=
        isLowerHexChar_hexDigit _ (by omega)
      have e6 : isLowerHexChar (hexDigit (b2 % 16)) = true :=
        isLowerHexChar_hexDigit _ (by omega)
      have e7 : isLowerHexChar (hexDigit (b3 % 256 / 16)) = true :=
        isLowerHexChar_hexDigit _ (by omega)
      have e8 : isLowerHexChar (hexDigit (b3 % 16)) = true :=
        isLowerHexChar_hexDigit _ (by omega)
      simp [hexByte, e1, e2, e3, e4, e5, e6, e7, e8]
  · intro now hunt st
    simp only [CreateHunt]
    split <;> split <;> rfl

theorem takeWhile_append_all {α : Type} (p : α → Bool) :
    ∀ (xs ys : List α), (∀ x ∈ xs, p x = true) →
    List.takeWhile p (xs ++ ys) = xs ++ List.takeWhile p ys := by
  intro xs
  induction xs with
  | nil => intro ys _; simp
  | cons a as ih =>
    intro ys h
    have ha : p a = true := h a (List.mem_cons_self a as)
    rw [List.cons_append, List.takeWhile_cons, if_pos ha,
      ih ys (fun x hx => h x (List.mem_cons_of_mem a hx)), List.cons_append]

theorem pathBaseAux_ne_nil (l : List Char) (h : l ≠ []) :
    pathBaseAux l
      = (if (l.reverse.dropWhile (fun c => c == '/')) = [] then ['/']
         else ((l.reverse.dropWhile (fun c => c == '/')).takeWhile
           (fun c => c != '/')).reverse) := by
  cases l with
  | nil => exact absurd rfl h
  | cons a rest => rfl

theorem pathBaseAux_concat (p b : List Char) (hb : b ≠ [])
    (hnos : ∀ c ∈ b, c ≠ '/') : pathBaseAux (p ++ '/' :: b) = b := by
  rw [pathBaseAux_ne_nil _ (by simp)]
  have hrev : (p ++ '/' :: b).reverse = b.reverse ++ '/' :: p.reverse := by
    rw [List.reverse_append, List.reverse_cons, List.append_assoc]
    simp
  rw [hrev]
  obtain ⟨c, cs, hbc⟩ : ∃ c cs, b.reverse = c :: cs := by
    cases hb2 : b.reverse with
    | nil => exact absurd (List.reverse_eq_nil_iff.mp hb2) hb
    | cons c cs => exact ⟨c, cs, rfl⟩
  have hc : c ∈ b := by
    rw [← List.mem_reverse, hbc]
    exact List.mem_cons_self _ _
  have hcne : (c == '/') = false := by simp [hnos c hc]
  have hdrop : (b.reverse ++ '/' :: p.reverse).dropWhile (fun c => c == '/')
      = b.reverse ++ '/' :: p.reverse := by
    rw [hbc, List.cons_append, List.dropWhile_cons, hcne]
    simp
  rw [hdrop, if_neg (by rw [hbc]; simp)]
  have htake : (b.reverse ++ '/' :: p.reverse).takeWhile (fun c => c != '/')
      = b.reverse := by
    rw [takeWhile_append_all (fun c => c != '/') b.reverse ('/' :: p.reverse)
      (fun x hx => by simp [hnos x (List.mem_reverse.mp hx)])]
    rw [List.takeWhile_cons]
    simp
  rw [htake, List.reverse_reverse]

theorem pathBaseAux_no_slash (l : List Char) :
    pathBaseAux l = ['.'] ∨ pathBaseAux l = ['/']
    ∨ ∀ c ∈ pathBaseAux l, c ≠ '/' := by
  cases l with
  | nil => left; rfl
  | cons a rest =>
    by_cases hr : (((a :: rest).reverse).dropWhile (fun c => c == '/')) = []
    · right; left
      rw [pathBaseAux_ne_nil _ (by simp), if_pos hr]
    · right; right
      intro c hc
      rw [pathBaseAux_ne_nil _ (by simp), if_neg hr] at hc
      have hc2 := List.mem_reverse.mp hc
      have hp := List.mem_takeWhile_imp hc2
      simpa using hp

/-- The hunt of the C10 counterexample: its creation time is 0, the
protobuf zero value. -/
def c10Hunt : Hunt :=
  { huntId := "aff4:/hunts/H.0011223344556677", state := HuntState.RUNNING }

/-- The one-hunt mirror of the C10 counterexample. -/
def c10Mirror : HuntDispatcher := { hunts := [c10Hunt] }

/-- C10 counterexample: for this mirrored hunt the lookup by the base
component of its stored id does not succeed — GetHunt only searches
GetApplicableHunts(0), which drops a hunt whose creation time is 0, so
the lookup the claim says must succeed returns NotFound. -/
theorem get_hunt_counterexample :
    c10Hunt ∈ c10Mirror.hunts
    ∧ pathBase c10Hunt.huntId = "H.0011223344556677"
    ∧ GetHunt c10Mirror "H.0011223344556677" = Except.error "Not found" := by
  exact ⟨by decide, by rfl, by rfl⟩

/-- C10 (amended): for every mirrored hunt with nonzero creation time
whose stored id has the form prefix/base with a nonempty slash-free base
(as all aff4:/hunts/H.x ids do), GetHunt with the full stored id fails
with NotFound — no applicable hunt's base component can equal a string
containing a slash — while GetHunt with just the base component succeeds. -/
theorem get_hunt_base_component (d : HuntDispatcher) (hunt : Hunt) (p b : String)
    (hmem : hunt ∈ d.hunts) (hct : 0 < hunt.createTime)
    (hid : hunt.huntId = p ++ "/" ++ b) (hb : b.data ≠ [])
    (hnos : ∀ c ∈ b.data, c ≠ '/') :
    GetHunt d hunt.huntId = Except.error "Not found"
    ∧ ∃ h2 : Hunt, GetHunt d b = Except.ok h2 := by
  have hdata : hunt.huntId.data = p.data ++ '/' :: b.data := by
    rw [hid, String.data_append, String.data_append]
    simp [List.append_assoc]
  have hbase : pathBase hunt.huntId = b := by
    show String.mk (pathBaseAux hunt.huntId.data) = b
    rw [hdata, pathBaseAux_concat p.data b.data hb hnos]
  have hfull : ∀ h2 ∈ GetApplicableHunts d 0,
      ¬ (pathBase h2.huntId == hunt.huntId) = true := by
    intro h2 _ hcon
    have heq : pathBase h2.huntId = hunt.huntId := eq_of_beq hcon
    have hdq : pathBaseAux h2.huntId.data = hunt.huntId.data :=
      congrArg String.data heq
    rcases pathBaseAux_no_slash h2.huntId.data with h3 | h3 | h3
    · rw [h3, hdata] at hdq
      have hmm : ('/' : Char) ∈ ['.'] := by
        rw [hdq]
        exact List.mem_append_right _ (List.mem_cons_self _ _)
      simp at hmm
    · rw [h3, hdata] at hdq
      have hlen := congrArg List.length hdq
      simp only [List.length_cons, List.length_append, List.length_nil] at hlen
      have hbl : 0 < b.data.length := List.length_pos.mpr hb
      omega
    · have hmm : ('/' : Char) ∈ pathBaseAux h2.huntId.data := by
        rw [hdq, hdata]
        exact List.mem_append_right _ (List.mem_cons_self _ _)
      exact absurd rfl (h3 '/' hmm)
  have hfind : (GetApplicableHunts d 0).find?
      (fun h2 => pathBase h2.huntId == b) ≠ none := by
    intro hnone
    have hmem2 : hunt ∈ GetApplicableHunts d 0 :=
      List.mem_filter.mpr ⟨hmem, by simp [hct]⟩
    apply List.find?_eq_none.mp hnone hunt hmem2
    rw [hbase]
    exact beq_self_eq_true b
  constructor
  · unfold GetHunt
    rw [List.find?_eq_none.mpr hfull]
  · cases hf : (GetApplicableHunts d 0).find? (fun h2 => pathBase h2.huntId == b) with
    | none => exact absurd hf hfind
    | some h2 =>
      refine ⟨FindCollectedArtifacts h2, ?_⟩
      unfold GetHunt
      rw [hf]

/-- The hunt of the C10 witness, with nonzero creation time. -/
def c10wHunt : Hunt :=
  { huntId := "aff4:/hunts/H.0011223344556677", createTime := 7,
    state := HuntState.RUNNING }

/-- The one-hunt mirror of the C10 witness. -/
def c10wMirror : HuntDispatcher := { hunts := [c10wHunt] }

/-- Witness for get_hunt_base_component at a concrete mirror. -/
theorem get_hunt_base_component_witness :
    (c10wHunt ∈ c10wMirror.hunts ∧ 0 < c10wHunt.createTime)
    ∧ GetHunt c10wMirror c10wHunt.huntId = Except.error "Not found"
    ∧ ∃ h2 : Hunt, GetHunt c10wMirror "H.0011223344556677" = Except.ok h2 := by
  have h := get_hunt_base_component c10wMirror c10wHunt "aff4:/hunts"
    "H.0011223344556677" (by decide) (by decide) (by rfl) (by decide) (by decide)
  exact ⟨⟨by decide, by decide⟩, h.1, h.2⟩
